import Mathlib

/-
  Verification development for the baya-server repository.

  The definitions below are a shallow embedding of the JavaScript source:
  - src/unnamed/part_001 : the slot-extraction revision of the chat server;
  - src/server/index.js  : the history-tracking revision (src/unnamed/part_000
    matches it except for the chat pipeline; the realtime route is the same
    constant in both).

  JavaScript numbers are modelled as rationals (the arithmetic the server
  performs is exact on rationals), strings as Lean strings or lists of
  characters, fallible JSON parsing as an Option, and absent (`undefined`)
  record fields as Option.  The regular-expression tests of the source are
  spelled out as executable character-list scanners with the same matching
  semantics on the inputs the server handles (ASCII whitespace classes).
-/

-- JS regular-expression class \s, restricted to the ASCII range.
def isWs (c : Char) : Bool :=
  c == ' ' || c == '\t' || c == '\n' || c == '\r' || c == Char.ofNat 11 || c == Char.ofNat 12

def lcList (l : List Char) : List Char := l.map Char.toLower

-- JS String.prototype.trim, on character lists.
def trimWs (l : List Char) : List Char :=
  ((l.dropWhile isWs).reverse.dropWhile isWs).reverse

-- JS String.prototype.includes, on character lists (haystack first).
def jsIncludes : List Char → List Char → Bool
  | [], needle => needle.isEmpty
  | c :: rest, needle => needle.isPrefixOf (c :: rest) || jsIncludes rest needle

-- JS `x || dflt` for string-valued fields (the empty string is falsy).
def strOr : Option String → String → String
  | some s, d => if s = "" then d else s
  | none, d => d

-- JS `x || dflt` for numeric fields (0 is falsy).
def numOr : Option ℚ → ℚ → ℚ
  | some v, d => if v = 0 then d else v
  | none, d => d

def truthyOpt : Option String → Bool
  | some s => !(s == "")
  | none => false

-- JS `x || null` for an optional string.
def jsStrOrNull : Option String → Option String
  | some s => if s = "" then none else some s
  | none => none

-- JS Math.round: round half toward positive infinity.
def jsRound (x : ℚ) : ℤ := ⌊x + 1 / 2⌋

-- UTF-8 encoding of a code point, as byte values.
def utf8Bytes (n : ℕ) : List ℕ :=
  if n < 128 then [n]
  else if n < 2048 then [192 + n / 64, 128 + n % 64]
  else if n < 65536 then [224 + n / 4096, 128 + n / 64 % 64, 128 + n % 64]
  else [240 + n / 262144, 128 + n / 4096 % 64, 128 + n / 64 % 64, 128 + n % 64]

def hexDigit (n : ℕ) : Char := if n < 10 then Char.ofNat (48 + n) else Char.ofNat (55 + n)

-- encodeURIComponent keeps the unreserved ASCII bytes A-Z a-z 0-9 - _ . ! ~ * ' ( ).
def isUnreservedByte (n : ℕ) : Bool :=
  (65 ≤ n && n ≤ 90) || (97 ≤ n && n ≤ 122) || (48 ≤ n && n ≤ 57) ||
  n == 45 || n == 95 || n == 46 || n == 33 || n == 126 || n == 42 || n == 39 || n == 40 || n == 41

def encodeURIComponent (s : String) : String :=
  String.mk ((s.toList.flatMap fun c => utf8Bytes c.toNat).flatMap fun b =>
    if isUnreservedByte b then [Char.ofNat b] else ['%', hexDigit (b / 16), hexDigit (b % 16)])

/-
  Data model.  An ArtworkRecord carries exactly the catalog-JSON fields the
  two revisions read; a field a given catalog entry lacks is `none`.
-/

structure ArtworkRecord where
  art_id : Option String
  slug : Option String
  title : Option String
  artist : Option String
  Artist : Option String
  Price : Option ℚ
  price : Option ℚ
  main_image : Option String
  image : Option String
  short_spec : Option String
  size : Option String
  search_blob : Option String
deriving DecidableEq

structure NormalizedItem where
  art_id : String
  title : String
  artist : String
  price_original : ℚ
  price_final : ℚ
  discount_percent : ℕ
  slug : String
  main_image : String
  short_spec : String
  product_url : String
deriving DecidableEq

-- part_001 line 9: default BASE_PRODUCT_URL.
def BASE_PRODUCT_URL : String := "https://bayagallery.com/artwork/"

-- part_001 line 18.
def productUrl (slug : String) : String := BASE_PRODUCT_URL ++ encodeURIComponent slug

-- part_001 line 21: Number(rec.Price || rec.price || 0).
def recPrice (rec : ArtworkRecord) : ℚ := numOr rec.Price (numOr rec.price 0)

-- part_001 lines 22-24: the two coupon codes recognised by normalizeRecord.
def couponDiscount (couponCode : Option String) : ℕ :=
  if couponCode = some ("5OFF") then 5 else if couponCode = some ("10OFF") then 10 else 0

-- part_001 line 25: discount ? Math.round(price * (1 - discount/100)) : price.
def finalPrice (price : ℚ) (discount : ℕ) : ℚ :=
  if discount ≠ 0 then ((jsRound (price * (1 - (discount : ℚ) / 100)) : ℤ) : ℚ) else price

-- part_001 lines 20-38.
def normalizeRecord (rec : ArtworkRecord) (couponCode : Option String) : NormalizedItem :=
  ⟨strOr rec.art_id (strOr rec.slug ("")),
   strOr rec.title (""),
   strOr rec.artist (strOr rec.Artist ("")),
   recPrice rec,
   finalPrice (recPrice rec) (couponDiscount couponCode),
   couponDiscount couponCode,
   strOr rec.slug (""),
   strOr rec.main_image (strOr rec.image ("")),
   strOr rec.short_spec (strOr rec.size ("")),
   productUrl (strOr rec.slug (""))⟩

-- index.js lines 83-92: the discount decision of the history-tracking revision.
structure Coupon where
  code : String
  percent : ℕ
deriving DecidableEq

-- index.js lines 132-136: finalPrice = Math.round(price * (100 - discount.percent)) / 100.
def sellingFinalPrice (price : ℚ) (discount : Option Coupon) : ℚ :=
  match discount with
  | some d => ((jsRound (price * (100 - (d.percent : ℚ))) : ℤ) : ℚ) / 100
  | none => price

-- An all-absent catalog record, used to build concrete inputs.
def blankRec : ArtworkRecord :=
  ⟨none, none, none, none, none, none, none, none, none, none, none, none⟩

-- A record whose only set field is a price of 100.
def recHundred : ArtworkRecord :=
  ⟨none, none, none, none, none, none, some 100, none, none, none, none, none⟩

-- A record whose only set field is a fractional price of 3/5.
def recFrac : ArtworkRecord :=
  ⟨none, none, none, none, none, none, some (3 / 5), none, none, none, none, none⟩

/-
  Catalog search.  Both revisions score every record, sort by descending
  score and slice.  JS Array.prototype.sort is a stable sort and the
  comparator is (a, b) => b.score - a.score; a stable non-increasing
  ordering of a list is unique, so the sort is modelled by a stable
  insertion sort.
-/

structure Scored where
  rcd : ArtworkRecord
  score : ℕ
deriving DecidableEq

def insertScored (x : Scored) : List Scored → List Scored
  | [] => [x]
  | y :: ys => if y.score ≤ x.score then x :: y :: ys else y :: insertScored x ys

def sortScored : List Scored → List Scored
  | [] => []
  | x :: xs => insertScored x (sortScored xs)

-- part_001 lines 40-48: substring scoring 2/2/1 on title/artist/short_spec.
def scoreSub (q : String) (r : ArtworkRecord) : ℕ :=
  let query := trimWs (lcList q.toList)
  (if jsIncludes (lcList (strOr r.title ("")).toList) query then 2 else 0) +
  (if jsIncludes (lcList (strOr r.artist ("")).toList) query then 2 else 0) +
  (if jsIncludes (lcList (strOr r.short_spec ("")).toList) query then 1 else 0)

def scoredSub (catalog : List ArtworkRecord) (q : String) : List Scored :=
  catalog.map fun r => ⟨r, scoreSub q r⟩

-- part_001 lines 40-50 (the call site uses limit 2).
def searchArtworksSub (catalog : List ArtworkRecord) (q : String) (n : ℕ) : List ArtworkRecord :=
  ((sortScored (scoredSub catalog q)).take n).map Scored.rcd

-- JS split(/\s+/) with filter(Boolean): the whitespace-separated words.
def splitWsAux : List Char → List Char → List (List Char)
  | [], acc => [acc.reverse]
  | c :: cs, acc => if isWs c then acc.reverse :: splitWsAux cs [] else splitWsAux cs (c :: acc)

def splitWs (l : List Char) : List (List Char) := splitWsAux l []

-- index.js lines 49-66: per-token scoring 2/3/3 on search_blob/title/artist
-- plus 1 for the presence of a main image.
def scoreTok (q : String) (r : ArtworkRecord) : ℕ :=
  let qq := trimWs (lcList q.toList)
  let tokens := if qq.isEmpty then [] else (splitWs qq).filter fun t => !t.isEmpty
  (if !tokens.isEmpty then
    (tokens.map fun tok =>
      (if jsIncludes (lcList (strOr r.search_blob ("")).toList) tok then 2 else 0) +
      (if jsIncludes (lcList (strOr r.title ("")).toList) tok then 3 else 0) +
      (if jsIncludes (lcList (strOr r.artist ("")).toList) tok then 3 else 0)).sum
   else 0) +
  (if truthyOpt r.main_image then 1 else 0)

def scoredTok (catalog : List ArtworkRecord) (q : String) : List Scored :=
  catalog.map fun r => ⟨r, scoreTok q r⟩

-- index.js lines 49-71 (the call sites use limit 3).
def searchArtworksTok (catalog : List ArtworkRecord) (q : String) (n : ℕ) : List ArtworkRecord :=
  ((sortScored (scoredTok catalog q)).take n).map Scored.rcd

-- Non-increasing score order on scored entries.
def descScored (a b : Scored) : Prop := b.score ≤ a.score

/-
  Chat data model shared by the revisions.
-/

structure ChatMsg where
  role : String
  content : Option String
deriving DecidableEq

structure ChatMeta where
  sessionId : Option String
  buyerName : Option String
deriving DecidableEq

structure ChatRequest where
  message : Option String
  history : Option (List ChatMsg)
  meta : Option ChatMeta
deriving DecidableEq

/-
  Slot extraction of part_001 (lines 52-67).  The regular expressions are
  modelled as scanners over character lists with JS leftmost-match
  semantics.  In each alternation below, at most one alternative can match
  at a given position, so trying the alternatives in source order at each
  position, left to right, is the exact JS behaviour.
-/

def isWordChar (c : Char) : Bool := c.isAlpha || c.isDigit || c == '_'

-- The apostrophe character (kept out of literals).
def aposC : Char := Char.ofNat 39

def aposS : String := String.mk [aposC]

-- Character class [A-Za-z\s'-] of the name capture.
def isNameClass (c : Char) : Bool := c.isAlpha || isWs c || c == aposC || c == '-'

-- Capture group [A-Za-z][A-Za-z\s'-]{1,25}: a letter plus one to
-- twenty-five further class characters, taken greedily.
def matchCap : List Char → Option (List Char)
  | [] => none
  | c :: rest =>
    if c.isAlpha then
      let tail := (rest.takeWhile isNameClass).take 25
      if tail.isEmpty then none else some (c :: tail)
    else none

-- \s+ (one or more whitespace) followed by the capture group.
def afterPhrase : List Char → Option (List Char)
  | [] => none
  | c :: rest => if isWs c then matchCap ((c :: rest).dropWhile isWs) else none

-- One alternative of (?:my name is|i'm|i am), case-insensitively, then the rest.
def tryPhraseCap (p cs : List Char) : Option (List Char) :=
  if p.isPrefixOf (lcList cs) then afterPhrase (cs.drop p.length) else none

def namePhrases : List (List Char) :=
  [("my name is").toList, (("i" ++ aposS ++ "m")).toList, ("i am").toList]

def tryNameAt (cs : List Char) : Option (List Char) :=
  match namePhrases.filterMap (fun p => tryPhraseCap p cs) with
  | [] => none
  | cap :: _ => some cap

-- Scan of /\b(?:my name is|i'm|i am)\s+([A-Za-z][A-Za-z\s'-]{1,25})/i over
-- the raw message: try each position that is a word boundary, left to right.
def nameScan : List Char → Bool → Option (List Char)
  | [], _ => none
  | c :: rest, atB =>
    match (if atB then tryNameAt (c :: rest) else none) with
    | some cap => some cap
    | none => nameScan rest (!isWordChar c)

-- part_001 lines 54-55, including the .trim() on the capture.
def extractName (message : String) : Option String :=
  (nameScan message.toList true).map fun cap => String.mk (trimWs cap)

-- First alternative of a literal alternation matching at a position.
def matchAltAt (cs : List Char) (alts : List (List Char)) : Option (List Char) :=
  alts.find? fun a => a.isPrefixOf cs

-- Leftmost match of a literal alternation over the whole text.
def firstAlt : List Char → List (List Char) → Option (List Char)
  | [], alts => matchAltAt [] alts
  | c :: rest, alts =>
    match matchAltAt (c :: rest) alts with
    | some a => some a
    | none => firstAlt rest alts

-- part_001 line 56.
def roomAlts : List (List Char) :=
  [("living room").toList, ("bedroom").toList, ("office").toList, ("dining").toList,
   ("hall").toList, ("kitchen").toList, ("study").toList]

-- part_001 line 57.
def styleAlts : List (List Char) :=
  [("minimal").toList, ("bold").toList, ("colorful").toList, ("abstract").toList,
   ("portrait").toList, ("judaica").toList, ("ai").toList]

-- Capture \d[\d,\.]* starting at a digit.
def captureNum : List Char → List Char
  | [] => []
  | d :: rest => d :: rest.takeWhile fun c => c.isDigit || c == ',' || c == '.'

-- After a literal $: \s? then the numeric capture.
def budgetAt : List Char → Option (List Char)
  | [] => none
  | c :: rest =>
    if isWs c then
      match rest with
      | [] => none
      | d :: _ => if d.isDigit then some (captureNum rest) else none
    else if c.isDigit then some (captureNum (c :: rest)) else none

-- Scan of /\$\s?(\d[\d,\.]*)/ : leftmost dollar sign whose tail matches.
def budgetScan : List Char → Option (List Char)
  | [] => none
  | c :: rest =>
    if c == '$' then
      match budgetAt rest with
      | some cap => some cap
      | none => budgetScan rest
    else budgetScan rest

structure Need where
  room : Option String
  style : Option String
  budget : Option String
deriving DecidableEq

structure Extracted1 where
  name : Option String
  need : Need
deriving DecidableEq

-- part_001 lines 52-67.  The blob is the message joined with all history
-- contents by single spaces, lowercased; the name is matched on the raw
-- message only.
def extractState1 (message : String) (history : List ChatMsg) : Extracted1 :=
  let blob :=
    lcList (String.intercalate (" ") (message :: history.map fun h => strOr h.content (""))).toList
  ⟨extractName message,
   ⟨(firstAlt blob roomAlts).map String.mk,
    (firstAlt blob styleAlts).map String.mk,
    (budgetScan blob).map String.mk⟩⟩

-- The scenario message of the specification (ASCII apostrophe in I'm).
def danaMsg : String :=
  "Hi, I" ++ aposS ++ "m Dana, from Tel Aviv, looking for something bold for my living room, budget $500"

-- All slot values an extraction result carries.
def slotVals (e : Extracted1) : List String :=
  [e.name, e.need.room, e.need.style, e.need.budget].filterMap id

/-
  A small JSON value model for the request and response bodies.  A failed
  JSON.parse is the `none` case of an Option at the endpoint boundary.
-/

inductive Json where
  | null : Json
  | str : String → Json
  | num : ℚ → Json
  | arr : List Json → Json
  | obj : List (String × Json) → Json

def jget (j : Json) (k : String) : Option Json :=
  match j with
  | .obj kvs => kvs.lookup k
  | _ => none

def jsonKeys : Json → List String
  | .obj kvs => kvs.map Prod.fst
  | _ => []

def metaOf (j : Json) : Json :=
  match jget j ("meta") with
  | some m => m
  | none => .null

def optStrJson : Option String → Json
  | some s => .str s
  | none => .null

def optStrOf : Option Json → Option String
  | some (.str s) => some s
  | _ => none

/-
  part_001 coupon offer, story weaving and reply assembly.
-/

-- part_001 lines 69-73.
def shouldOfferCoupon (text : String) : Option String :=
  let t := lcList text.toList
  if jsIncludes t ("expensive").toList || jsIncludes t ("too much").toList ||
     jsIncludes t ("pricey").toList || jsIncludes t ("discount").toList ||
     jsIncludes t ("lower").toList || jsIncludes t ("deal").toList ||
     jsIncludes t ("offer").toList
  then some ("5OFF") else none

-- \s* then a literal; the literals involved never begin with whitespace, so
-- the greedy whitespace skip is exact.
def afterWsLit (p t : List Char) : Bool := p.isPrefixOf (t.dropWhile isWs)

-- /october\s*7/
def octoberPat : List Char → Bool
  | [] => false
  | c :: rest =>
    (("october").toList.isPrefixOf (c :: rest) &&
      afterWsLit (("7").toList) ((c :: rest).drop 7)) ||
    octoberPat rest

-- /donation\s*to\s*idf/
def donationPat : List Char → Bool
  | [] => false
  | c :: rest =>
    (("donation").toList.isPrefixOf (c :: rest) &&
      (let t1 := ((c :: rest).drop 8).dropWhile isWs
       ("to").toList.isPrefixOf t1 && afterWsLit (("idf").toList) (t1.drop 2))) ||
    donationPat rest

-- /support\s*idf/
def supportPat : List Char → Bool
  | [] => false
  | c :: rest =>
    (("support").toList.isPrefixOf (c :: rest) &&
      afterWsLit (("idf").toList) ((c :: rest).drop 7)) ||
    supportPat rest

-- part_001 lines 75-80.
def maybeWeaveStory (history : List ChatMsg) (message : String) : Bool :=
  let all :=
    lcList (String.intercalate (" ")
      ((history.map fun h => strOr h.content ("")) ++ [message])).toList
  let already := octoberPat all || donationPat all || supportPat all
  let m := lcList message.toList
  let interest := jsIncludes m ("love").toList || jsIncludes m ("like").toList ||
    jsIncludes m ("interested").toList || jsIncludes m ("meaning").toList ||
    jsIncludes m ("story").toList || jsIncludes m ("origin").toList ||
    jsIncludes m ("artist").toList
  !already && interest

-- JS String.prototype.replace with a string pattern: first occurrence only.
def replaceFirst : List Char → List Char → List Char → List Char
  | [], _, _ => []
  | c :: rest, pat, rep =>
    if pat.isPrefixOf (c :: rest) then rep ++ (c :: rest).drop pat.length
    else c :: replaceFirst rest pat rep

def strReplaceFirst (s pat rep : String) : String :=
  String.mk (replaceFirst s.toList pat.toList rep.toList)

-- The right single quotation mark used inside part_001 template strings.
def rsq : String := "’"

def greeting1 : String :=
  "Hi! I" ++ rsq ++ "m Maya, BAYA Gallery" ++ rsq ++
    "s senior design consultant. What" ++ rsq ++ "s your name?"

def askRoom1 : String := "which room you" ++ rsq ++ "re styling"

def askStyle1 : String := "what vibe you love (minimal, bold, colorful, abstract)"

def askBudget1 : String := "a comfortable budget"

def story1 : String :=
  "By the way, after the October 7 tragedy, our gallery had to pause for almost two years. Now, every artwork purchased supports Israeli artists and includes a donation to IDF soldiers " ++
    "—" ++ " beauty with real purpose."

def cta1 : String :=
  "Would you like me to reserve your favorite so it" ++ rsq ++ "s on its way today?"

def couponLine1 (c : String) : String :=
  "If price is a consideration, I can extend a **" ++ strReplaceFirst c ("OFF") ("%") ++
    " courtesy** today; you can apply the code **" ++ c ++ "** at checkout."

def itemsIntro1 (need : Need) (items : List NormalizedItem) : String :=
  "Based on what you shared, here " ++
  (if items.length > 1 then "are a couple of refined picks" else "is a strong pick") ++
  " for your " ++ strOr need.room ("") ++ ":"

-- part_001 lines 82-111.
def assembleReply1 (name : Option String) (need : Need) (items : List NormalizedItem)
    (coupon : Option String) (weaveStory : Bool) : String :=
  if !truthyOpt name then greeting1
  else if !truthyOpt need.room || !truthyOpt need.style || !truthyOpt need.budget then
    let ask := (if truthyOpt need.room then [] else [askRoom1]) ++
               (if truthyOpt need.style then [] else [askStyle1]) ++
               (if truthyOpt need.budget then [] else [askBudget1])
    "Lovely to meet you, " ++ strOr name ("") ++ ". To curate properly, could you tell me " ++
      String.intercalate (", ") ask ++ "?"
  else
    let parts :=
      (if !items.isEmpty then [itemsIntro1 need items] else []) ++
      (if weaveStory then [story1] else []) ++
      (match coupon with
       | some c => [couponLine1 c]
       | none => []) ++
      [cta1]
    String.intercalate ("\n\n") parts

structure ChatPayload1 where
  reply : String
  items : List NormalizedItem
  buyerName : Option String
deriving DecidableEq

-- part_001 lines 131-147: the successful /api/chat computation.
def chatHandler1 (catalog : List ArtworkRecord) (req : ChatRequest) : ChatPayload1 :=
  let message := strOr req.message ("")
  let history := req.history.getD []
  let name0 := jsStrOrNull (req.meta.bind ChatMeta.buyerName)
  let extracted := extractState1 message history
  let name := match name0 with
    | some s => some s
    | none => jsStrOrNull extracted.name
  let need := extracted.need
  let coupon := shouldOfferCoupon message
  let seed := String.mk (trimWs (strOr need.style message).toList)
  let items := (searchArtworksSub catalog seed 2).map fun r => normalizeRecord r coupon
  ⟨assembleReply1 name need items coupon (maybeWeaveStory history message), items, name⟩

def itemJson (it : NormalizedItem) : Json :=
  .obj [(("art_id"), .str it.art_id), (("title"), .str it.title), (("artist"), .str it.artist),
        (("price_original"), .num it.price_original), (("price_final"), .num it.price_final),
        (("discount_percent"), .num (it.discount_percent : ℚ)),
        (("slug"), .str it.slug), (("main_image"), .str it.main_image),
        (("short_spec"), .str it.short_spec), (("product_url"), .str it.product_url)]

-- part_001 line 147: payload = { reply, items, meta: { buyerName: name } }.
def chatResponseJson1 (catalog : List ArtworkRecord) (req : ChatRequest) : Json :=
  .obj [(("reply"), .str (chatHandler1 catalog req).reply),
        (("items"), .arr ((chatHandler1 catalog req).items.map itemJson)),
        (("meta"), .obj [(("buyerName"), optStrJson (chatHandler1 catalog req).buyerName)])]

def msgOfJson (j : Json) : ChatMsg :=
  ⟨(match optStrOf (jget j ("role")) with
    | some s => s
    | none => ""),
   optStrOf (jget j ("content"))⟩

def reqOfJson (data : Json) : ChatRequest :=
  ⟨optStrOf (jget data ("message")),
   (match jget data ("history") with
    | some (.arr l) => some (l.map msgOfJson)
    | _ => none),
   (match jget data ("meta") with
    | some (.obj kvs) =>
        some ⟨optStrOf (jget (.obj kvs) ("sessionId")), optStrOf (jget (.obj kvs) ("buyerName"))⟩
    | _ => none)⟩

-- part_001 line 153: the fallback reply of the catch branch.
def fallback1 : String :=
  "Sorry, I couldn" ++ aposS ++ "t process that. Please try again."

-- part_001 lines 128-155: status code and JSON body of POST /api/chat; a
-- malformed request body is a parse failure (none).
def chatEndpoint1 (catalog : List ArtworkRecord) (body : Option Json) : ℕ × Json :=
  match body with
  | none => (200, .obj [(("reply"), .str fallback1)])
  | some data => (200, chatResponseJson1 catalog (reqOfJson data))

-- Concrete requests used as witnesses.
def reqHello : ChatRequest := ⟨some ("hello"), some [], none⟩

def reqAnn : ChatRequest := ⟨some ("hello"), none, some ⟨none, some ("Ann")⟩⟩

def reqBobEmpty : ChatRequest :=
  ⟨some ("My name is Bob"), some [], some ⟨none, some ("")⟩⟩

/-
  index.js coupon decision, reply assembly and chat pipeline.
-/

-- Characters the JS dot does not match.
def notNL (c : Char) : Bool :=
  !(c == '\n' || c == '\r' || c == Char.ofNat 8232 || c == Char.ofNat 8233)

-- Whether b occurs after a (possibly empty) run of non-newline characters.
def hasWithinLine (b t : List Char) : Bool :=
  jsIncludes (t.take ((t.takeWhile notNL).length + b.length)) b

-- /a.*b/ : a literal, any non-newline run, then another literal.
def dotSeq (a b : List Char) : List Char → Bool
  | [] => false
  | c :: rest =>
    (a.isPrefixOf (c :: rest) && hasWithinLine b ((c :: rest).drop a.length)) ||
    dotSeq a b rest

-- index.js lines 83-92.
def decideCoupon (message : String) : Option Coupon :=
  let text := lcList message.toList
  let mild := jsIncludes text ("price").toList || jsIncludes text ("expensive").toList ||
    jsIncludes text ("discount").toList || jsIncludes text ("coupon").toList ||
    jsIncludes text ("deal").toList || jsIncludes text ("sale").toList
  let strong := jsIncludes text ("too expensive").toList || jsIncludes text ("budget").toList ||
    jsIncludes text ("limit").toList || jsIncludes text ("competitor").toList ||
    dotSeq ("if").toList ("price").toList text || dotSeq ("if").toList ("cost").toList text
  if strong then some ⟨("10OFF"), 10⟩ else if mild then some ⟨("5OFF"), 5⟩ else none

-- index.js lines 104-112, with the default environment values.
def buildCheckoutUrl (slug : String) (couponCode : Option String) : String :=
  let url := "https://bayagallery.com/art/" ++ encodeURIComponent slug ++ "?buy=1"
  match couponCode with
  | some c => if c = "" then url else url ++ "&coupon=" ++ encodeURIComponent c
  | none => url

structure SellingItem where
  idx : ℕ
  title : String
  artist : String
  spec : String
  price : ℚ
  finalPrice : ℚ
  url : String
deriving DecidableEq

inductive SellingReply where
  | apology : String → SellingReply
  | recsList : List SellingItem → Option Coupon → SellingReply
deriving DecidableEq

def apologyIdx : String :=
  "I" ++ aposS ++ "m sorry, I couldn" ++ aposS ++ "t find suitable artworks at this time."

-- index.js lines 125-150: the selling reply, kept structured; the computed
-- price and checkout-url values are exact.
def assembleSellingReply (results : List ArtworkRecord) (discount : Option Coupon) :
    SellingReply :=
  if results.isEmpty then .apology apologyIdx
  else
    .recsList
      (results.enum.map fun p =>
        let price := numOr p.2.price 0
        ⟨p.1 + 1, strOr p.2.title (""), strOr p.2.artist (""), strOr p.2.short_spec (""),
         price, sellingFinalPrice price discount,
         buildCheckoutUrl (strOr p.2.slug ("")) (discount.map Coupon.code)⟩)
      discount

structure IdxState where
  room : Bool
  style : Bool
  budget : Bool
  recommended : Bool
  storyTold : Bool
  discountOffered : Bool
deriving DecidableEq

-- index.js line 174: String(msg.content || '').toLowerCase().
def lcContent (m : ChatMsg) : List Char := lcList (strOr m.content ("")).toList

-- /here are some curated|refined pick|recommended artworks|curated recommendations/i
def recommendedPat (t : List Char) : Bool :=
  jsIncludes t ("here are some curated").toList || jsIncludes t ("refined pick").toList ||
  jsIncludes t ("recommended artworks").toList || jsIncludes t ("curated recommendations").toList

-- /october 7|7 october|idf|soldiers|donation/i
def storyPat (t : List Char) : Bool :=
  jsIncludes t ("october 7").toList || jsIncludes t ("7 october").toList ||
  jsIncludes t ("idf").toList || jsIncludes t ("soldiers").toList ||
  jsIncludes t ("donation").toList

-- /\d+%/ : some digit immediately followed by a percent sign.
def percentPat : List Char → Bool
  | [] => false
  | [_] => false
  | a :: b :: rest => (a.isDigit && b == '%') || percentPat (b :: rest)

-- /discount|off/
def offPat (t : List Char) : Bool :=
  jsIncludes t ("discount").toList || jsIncludes t ("off").toList

-- /(living room|bedroom|office|kitchen|dining|study|foyer)/i
def roomPatIdx (t : List Char) : Bool :=
  jsIncludes t ("living room").toList || jsIncludes t ("bedroom").toList ||
  jsIncludes t ("office").toList || jsIncludes t ("kitchen").toList ||
  jsIncludes t ("dining").toList || jsIncludes t ("study").toList ||
  jsIncludes t ("foyer").toList

-- /(abstract|minimal|minimalist|modern|contemporary|bold|colorful|monochrom|industrial|classic)/i
def stylePatIdx (t : List Char) : Bool :=
  jsIncludes t ("abstract").toList || jsIncludes t ("minimal").toList ||
  jsIncludes t ("minimalist").toList || jsIncludes t ("modern").toList ||
  jsIncludes t ("contemporary").toList || jsIncludes t ("bold").toList ||
  jsIncludes t ("colorful").toList || jsIncludes t ("monochrom").toList ||
  jsIncludes t ("industrial").toList || jsIncludes t ("classic").toList

-- /\$\s*\d+/ : dollar sign, any whitespace run, then a digit.
def digitAfterWs : List Char → Bool
  | [] => false
  | c :: rest => if isWs c then digitAfterWs rest else c.isDigit

def dollarNumPat : List Char → Bool
  | [] => false
  | c :: rest => (c == '$' && digitAfterWs rest) || dollarNumPat rest

-- /\d+\s*usd/ : a digit, any whitespace run, then usd.
def usdAfterWs (t : List Char) : Bool := ("usd").toList.isPrefixOf (t.dropWhile isWs)

def usdNumPat : List Char → Bool
  | [] => false
  | c :: rest => (c.isDigit && usdAfterWs rest) || usdNumPat rest

-- /(budget|price|cost|how much)/i
def budgetWordPat (t : List Char) : Bool :=
  jsIncludes t ("budget").toList || jsIncludes t ("price").toList ||
  jsIncludes t ("cost").toList || jsIncludes t ("how much").toList

-- index.js lines 173-199: one step of the history scan.
def stepState (st : IdxState) (msg : ChatMsg) : IdxState :=
  let text := lcContent msg
  if msg.role = "assistant" then
    ⟨st.room, st.style, st.budget,
     st.recommended || recommendedPat text,
     st.storyTold || storyPat text,
     st.discountOffered || (percentPat text && offPat text)⟩
  else if msg.role = "user" then
    ⟨st.room || (!st.room && roomPatIdx text),
     st.style || (!st.style && stylePatIdx text),
     st.budget || (!st.budget && (dollarNumPat text || usdNumPat text || budgetWordPat text)),
     st.recommended, st.storyTold, st.discountOffered⟩
  else st

-- index.js lines 165-201.
def extractStateIdx (history : List ChatMsg) : IdxState :=
  history.foldl stepState ⟨false, false, false, false, false, false⟩

inductive ReplyIdx where
  | text : String → ReplyIdx
  | selling : SellingReply → ReplyIdx
deriving DecidableEq

def askRoomIdx : String :=
  "To help me curate the perfect piece, could you tell me which room you" ++ rsq ++
    "re styling? For example: living room, bedroom, office, kitchen, or study."

def askStyleIdx : String :=
  "What style of art speaks to you? Some clients prefer abstract, minimalist, bold or classic pieces." ++
    " Let me know your taste so I can tailor my suggestions."

def askBudgetIdx : String :=
  "Do you have a comfortable budget range in mind? That will help me refine recommendations to fit within it."

def storyIdx : String :=
  "By the way, after the tragic events of October 7, our gallery had to pause operations for nearly two years. " ++
    "Today, every artwork purchased not only supports Israeli artists but also contributes to a donation we make to IDF soldiers. " ++
    "It" ++ rsq ++ "s art with both beauty and purpose. Let me know which piece resonates most with you."

def closingIdx : String :=
  "Is there anything else I can help you with regarding these pieces? I" ++ rsq ++
    "d be delighted to reserve one of them for you."

-- index.js lines 247-284, with the scanned state given; the second
-- component is the discount handed to assembleSellingReply (none when the
-- assembly is not invoked, or invoked with null).
def pipelineStep (catalog : List ArtworkRecord) (message : String) (state : IdxState) :
    ReplyIdx × Option Coupon :=
  if !state.room then (.text askRoomIdx, none)
  else if !state.style then (.text askStyleIdx, none)
  else if !state.budget then (.text askBudgetIdx, none)
  else if !state.recommended then
    let discount := if state.discountOffered then none else decideCoupon message
    (.selling (assembleSellingReply (searchArtworksTok catalog message 3) discount), discount)
  else if !state.storyTold then (.text storyIdx, none)
  else
    let discount := if state.discountOffered then none else decideCoupon message
    match discount with
    | some d =>
        (.selling (assembleSellingReply (searchArtworksTok catalog message 3) (some d)), some d)
    | none => (.text closingIdx, none)

-- index.js lines 236-292: the state is scanned over history plus the
-- current message appended as a user turn.
def chatPipelineIdx (catalog : List ArtworkRecord) (message : String)
    (history : List ChatMsg) : ReplyIdx × Option Coupon :=
  pipelineStep catalog message (extractStateIdx (history ++ [⟨("user"), some message⟩]))

inductive IdxBody where
  | errBody : Json → IdxBody
  | replyBody : ReplyIdx → IdxBody

-- index.js lines 231-293: status code and body of POST /api/chat; a parse
-- failure is answered 400 Invalid JSON.
def chatEndpointIdx (catalog : List ArtworkRecord) (body : Option Json) : ℕ × IdxBody :=
  match body with
  | none => (400, .errBody (Json.obj [(("error"), Json.str ("Invalid JSON"))]))
  | some data =>
      (200, .replyBody (chatPipelineIdx catalog
        (strOr (optStrOf (jget data ("message"))) (""))
        (match jget data ("history") with
         | some (.arr l) => l.map msgOfJson
         | _ => [])).1)

-- index.js lines 296-301 and part_000 lines 202-208: the realtime route is
-- a constant placeholder response.
def realtimeEndpoint : ℕ × Json :=
  (200, Json.obj [(("message"),
    Json.str ("Realtime API integration is not available in this demo."))])

-- The condition of index.js line 182 that switches discountOffered on.
def discountTrigger (m : ChatMsg) : Bool :=
  if m.role = "assistant" then percentPat (lcContent m) && offPat (lcContent m) else false

def histDiscount : List ChatMsg :=
  [⟨("assistant"), some ("I can offer a 5% discount today")⟩]

/- Helper lemmas about jsRound. -/

lemma jsRound_discounted_le (k : ℤ) (hk : 0 ≤ k) (d : ℕ) :
    ((jsRound ((k : ℚ) * (1 - (d : ℚ) / 100)) : ℤ) : ℚ) ≤ (k : ℚ) := by
  have hk' : (0 : ℚ) ≤ (k : ℚ) := by exact_mod_cast hk
  have hd' : (0 : ℚ) ≤ (d : ℚ) := by positivity
  have h1 : (k : ℚ) * (1 - (d : ℚ) / 100) + 1 / 2 < ((k + 1 : ℤ) : ℚ) := by
    push_cast
    nlinarith [mul_nonneg hk' hd']
  have h2 : jsRound ((k : ℚ) * (1 - (d : ℚ) / 100)) < k + 1 := by
    unfold jsRound
    exact Int.floor_lt.mpr h1
  have h3 : jsRound ((k : ℚ) * (1 - (d : ℚ) / 100)) ≤ k := by omega
  exact_mod_cast h3

lemma jsRound_intCast (k : ℤ) : jsRound ((k : ℤ) : ℚ) = k := by
  unfold jsRound
  rw [add_comm, Int.floor_add_int]
  norm_num

lemma jsRound_eq (x : ℚ) (m : ℤ) (h1 : (m : ℚ) ≤ x + 1 / 2) (h2 : x + 1 / 2 < (m : ℚ) + 1) :
    jsRound x = m := by
  unfold jsRound
  rw [Int.floor_eq_iff]
  constructor
  · exact h1
  · exact h2

lemma finalPrice_le (k : ℤ) (hk : 0 ≤ k) (d : ℕ) :
    finalPrice ((k : ℤ) : ℚ) d ≤ ((k : ℤ) : ℚ) := by
  by_cases hd : d = 0
  · simp [finalPrice, hd]
  · unfold finalPrice
    rw [if_pos hd]
    exact jsRound_discounted_le k hk d

lemma finalPrice_eq_round (k : ℤ) (d : ℕ) :
    finalPrice ((k : ℤ) : ℚ) d =
      ((jsRound (((k : ℤ) : ℚ) * (1 - (d : ℚ) / 100)) : ℤ) : ℚ) := by
  by_cases hd : d = 0
  · simp [finalPrice, hd, jsRound_intCast]
  · unfold finalPrice
    rw [if_pos hd]

lemma insertScored_perm (x : Scored) (l : List Scored) :
    List.Perm (insertScored x l) (x :: l) := by
  induction l with
  | nil => simp [insertScored]
  | cons y ys ih =>
    by_cases h : y.score ≤ x.score
    · simp [insertScored, h]
    · simp only [insertScored, if_neg h]
      exact (ih.cons y).trans (List.Perm.swap x y ys)

lemma sortScored_perm (l : List Scored) : List.Perm (sortScored l) l := by
  induction l with
  | nil => simp [sortScored]
  | cons x xs ih =>
    exact (insertScored_perm x (sortScored xs)).trans (ih.cons x)

lemma mem_insertScored {a x : Scored} {l : List Scored} :
    a ∈ insertScored x l ↔ a = x ∨ a ∈ l := by
  rw [(insertScored_perm x l).mem_iff]
  simp

lemma insertScored_pairwise (x : Scored) (l : List Scored)
    (h : List.Pairwise descScored l) : List.Pairwise descScored (insertScored x l) := by
  induction l with
  | nil => simp [insertScored, descScored]
  | cons y ys ih =>
    rcases List.pairwise_cons.mp h with ⟨hy, hys⟩
    by_cases hc : y.score ≤ x.score
    · simp only [insertScored, if_pos hc]
      refine List.pairwise_cons.mpr ⟨?_, h⟩
      intro b hb
      rcases List.mem_cons.mp hb with rfl | hb'
      · exact hc
      · exact le_trans (hy b hb') hc
    · simp only [insertScored, if_neg hc]
      refine List.pairwise_cons.mpr ⟨?_, ih hys⟩
      intro b hb
      rcases mem_insertScored.mp hb with rfl | hb'
      · exact le_of_not_le hc
      · exact hy b hb'

lemma sortScored_pairwise (l : List Scored) : List.Pairwise descScored (sortScored l) := by
  induction l with
  | nil => simp [sortScored]
  | cons x xs ih => exact insertScored_pairwise x (sortScored xs) ih

lemma insertScored_filter (x : Scored) (l : List Scored) (s : ℕ) :
    (insertScored x l).filter (fun y => y.score == s) =
      if x.score = s then x :: l.filter (fun y => y.score == s)
      else l.filter (fun y => y.score == s) := by
  induction l with
  | nil =>
    by_cases hx : x.score = s <;> simp [insertScored, List.filter_cons, hx]
  | cons y ys ih =>
    simp only [insertScored]
    by_cases hc : y.score ≤ x.score
    · rw [if_pos hc]
      by_cases hx : x.score = s <;> simp [List.filter_cons, hx]
    · rw [if_neg hc]
      by_cases hx : x.score = s
      · by_cases hy : y.score = s
        · exact absurd (by omega : y.score ≤ x.score) hc
        · simp [List.filter_cons, hy, ih, hx]
      · by_cases hy : y.score = s <;> simp [List.filter_cons, hy, ih, hx]

lemma sortScored_filter (l : List Scored) (s : ℕ) :
    (sortScored l).filter (fun y => y.score == s) = l.filter (fun y => y.score == s) := by
  induction l with
  | nil => rfl
  | cons x xs ih =>
    show (insertScored x (sortScored xs)).filter (fun y => y.score == s) = _
    rw [insertScored_filter, ih]
    by_cases hx : x.score = s <;> simp [List.filter_cons, hx]

lemma insertScored_uniform (x : Scored) (l : List Scored) (k : ℕ)
    (hx : x.score = k) (h : ∀ y ∈ l, y.score = k) : insertScored x l = x :: l := by
  cases l with
  | nil => rfl
  | cons y ys =>
    have hy : y.score = k := h y (by simp)
    have : y.score ≤ x.score := by omega
    simp [insertScored, this]

lemma sortScored_uniform (l : List Scored) (k : ℕ) (h : ∀ y ∈ l, y.score = k) :
    sortScored l = l := by
  induction l with
  | nil => rfl
  | cons x xs ih =>
    have hxs : ∀ y ∈ xs, y.score = k := fun y hy => h y (List.mem_cons_of_mem x hy)
    show insertScored x (sortScored xs) = x :: xs
    rw [ih hxs, insertScored_uniform x xs k (h x (by simp)) hxs]

lemma jsIncludes_nil (hay : List Char) : jsIncludes hay [] = true := by
  cases hay with
  | nil => rfl
  | cons c rest => simp [jsIncludes, List.isPrefixOf]

lemma trimWs_nil : trimWs (lcList []) = [] := rfl

lemma scoreSub_empty (r : ArtworkRecord) : scoreSub ("") r = 5 := by
  simp [scoreSub, trimWs_nil, jsIncludes_nil]

lemma scoreTok_empty (r : ArtworkRecord) :
    scoreTok ("") r = if truthyOpt r.main_image then 1 else 0 := by
  simp [scoreTok, trimWs_nil]

lemma searchTake_length (scored : List Scored) (n : ℕ) :
    (((sortScored scored).take n).map Scored.rcd).length ≤ n := by
  simp only [List.length_map, List.length_take]
  exact min_le_left _ _

lemma searchWith_pairwise (catalog : List ArtworkRecord) (f : ArtworkRecord → ℕ) (n : ℕ) :
    List.Pairwise (fun a b => f b ≤ f a)
      (((sortScored (catalog.map fun r => ⟨r, f r⟩)).take n).map Scored.rcd) := by
  have hmem : ∀ x ∈ sortScored (catalog.map fun r => (⟨r, f r⟩ : Scored)), x.score = f x.rcd := by
    intro x hx
    have hx' : x ∈ catalog.map fun r => (⟨r, f r⟩ : Scored) :=
      (sortScored_perm _).mem_iff.mp hx
    rcases List.mem_map.mp hx' with ⟨r, _, rfl⟩
    rfl
  have hp : List.Pairwise descScored (sortScored (catalog.map fun r => (⟨r, f r⟩ : Scored))) :=
    sortScored_pairwise _
  have hp2 : List.Pairwise descScored
      ((sortScored (catalog.map fun r => (⟨r, f r⟩ : Scored))).take n) :=
    hp.sublist (List.take_sublist n _)
  have hp3 : List.Pairwise (fun a b : Scored => f b.rcd ≤ f a.rcd)
      ((sortScored (catalog.map fun r => (⟨r, f r⟩ : Scored))).take n) := by
    refine hp2.imp_of_mem ?_
    intro a b ha hb hab
    have ha' := (List.take_sublist n _).subset ha
    have hb' := (List.take_sublist n _).subset hb
    rw [← hmem a ha', ← hmem b hb']
    exact hab
  exact List.pairwise_map.mpr hp3

lemma stepState_discount (st : IdxState) (m : ChatMsg) :
    (stepState st m).discountOffered = (st.discountOffered || discountTrigger m) := by
  unfold stepState discountTrigger
  by_cases h : m.role = "assistant"
  · simp [h]
  · by_cases h2 : m.role = "user"
    · simp [h, h2]
    · simp [h, h2]

lemma foldl_discount (history : List ChatMsg) (st : IdxState) :
    (history.foldl stepState st).discountOffered =
      (st.discountOffered || history.any discountTrigger) := by
  induction history generalizing st with
  | nil => simp
  | cons m rest ih =>
    simp only [List.foldl_cons, List.any_cons]
    rw [ih, stepState_discount]
    cases st.discountOffered <;> cases discountTrigger m <;> simp

/-- C1: for a catalog record whose price is a non-negative integer, every
coupon code yields price_final ≤ price_original and a discount percent in
the set 0, 5, 10, and an unrecognized coupon code yields discount 0.
(Amended: the price must be a non-negative integer; the source rounds half
up, so a fractional or negative price can round above itself.) -/
theorem normalizeRecord_price_invariant : ∀ (rec : ArtworkRecord) (c : Option String),
    (∃ k : ℤ, 0 ≤ k ∧ (normalizeRecord rec c).price_original = (k : ℚ)) →
    (normalizeRecord rec c).price_final ≤ (normalizeRecord rec c).price_original ∧
    ((normalizeRecord rec c).discount_percent = 0 ∨
      (normalizeRecord rec c).discount_percent = 5 ∨
      (normalizeRecord rec c).discount_percent = 10) ∧
    (c ≠ some ("5OFF") → c ≠ some ("10OFF") → (normalizeRecord rec c).discount_percent = 0) := by
  intro rec c h
  obtain ⟨k, hk, hpk⟩ := h
  simp only [normalizeRecord] at hpk ⊢
  refine ⟨?_, ?_, ?_⟩
  · rw [hpk]
    exact finalPrice_le k hk (couponDiscount c)
  · by_cases h5 : c = some ("5OFF")
    · simp [couponDiscount, h5]
    · by_cases h10 : c = some ("10OFF")
      · simp [couponDiscount, h5, h10]
      · simp [couponDiscount, h5, h10]
  · intro h5 h10
    simp [couponDiscount, h5, h10]

theorem normalizeRecord_price_invariant_witness :
    (normalizeRecord recHundred (some ("10OFF"))).price_final ≤
      (normalizeRecord recHundred (some ("10OFF"))).price_original :=
  (normalizeRecord_price_invariant recHundred (some ("10OFF"))
    ⟨100, by decide, by norm_num [normalizeRecord, recPrice, recHundred, numOr]⟩).1

theorem normalizeRecord_price_invariant_cx :
    (normalizeRecord recFrac (some ("5OFF"))).price_final = 1 ∧
    ¬ (normalizeRecord recFrac (some ("5OFF"))).price_final ≤
        (normalizeRecord recFrac (some ("5OFF"))).price_original := by
  have hp : recPrice recFrac = 3 / 5 := by
    norm_num [recPrice, recFrac, numOr]
  have hd : couponDiscount (some ("5OFF")) = 5 := by
    simp [couponDiscount]
  have hr : jsRound ((57 : ℚ) / 100) = 1 := by
    apply jsRound_eq <;> norm_num
  have hf : (normalizeRecord recFrac (some ("5OFF"))).price_final = 1 := by
    simp only [normalizeRecord, finalPrice, hp, hd]
    norm_num
    exact hr
  refine ⟨hf, ?_⟩
  rw [hf]
  simp only [normalizeRecord, hp]
  norm_num

/-- C5: for a catalog record with integer price, normalizeRecord computes
price_final = round(price_original * (1 - discount/100)) with discount in
0, 5, 10; the assembleSellingReply revision instead computes
round(price * (100 - percent)) / 100, which is not the claimed integer
rounding. (Amended: the formula holds for normalizeRecord on integer
prices; the index.js reply assembly divides a rounded product by 100.) -/
theorem price_final_formula : ∀ (rec : ArtworkRecord) (c : Option String),
    (∃ k : ℤ, (normalizeRecord rec c).price_original = (k : ℚ)) →
    (normalizeRecord rec c).price_final =
      ((jsRound ((normalizeRecord rec c).price_original *
        (1 - ((normalizeRecord rec c).discount_percent : ℚ) / 100)) : ℤ) : ℚ) ∧
    ((normalizeRecord rec c).discount_percent = 0 ∨
      (normalizeRecord rec c).discount_percent = 5 ∨
      (normalizeRecord rec c).discount_percent = 10) ∧
    (∀ (p : ℚ) (dis : Coupon), sellingFinalPrice p (some dis) =
      ((jsRound (p * (100 - (dis.percent : ℚ))) : ℤ) : ℚ) / 100) := by
  intro rec c h
  obtain ⟨k, hpk⟩ := h
  simp only [normalizeRecord] at hpk ⊢
  refine ⟨?_, ?_, fun p dis => rfl⟩
  · rw [hpk]
    exact finalPrice_eq_round k (couponDiscount c)
  · by_cases h5 : c = some ("5OFF")
    · simp [couponDiscount, h5]
    · by_cases h10 : c = some ("10OFF")
      · simp [couponDiscount, h5, h10]
      · simp [couponDiscount, h5, h10]

theorem price_final_formula_witness :
    (normalizeRecord recHundred (some ("5OFF"))).price_final =
      ((jsRound ((normalizeRecord recHundred (some ("5OFF"))).price_original *
        (1 - ((normalizeRecord recHundred (some ("5OFF"))).discount_percent : ℚ) / 100)) : ℤ) : ℚ) :=
  (price_final_formula recHundred (some ("5OFF"))
    ⟨100, by norm_num [normalizeRecord, recPrice, recHundred, numOr]⟩).1

theorem price_final_formula_cx :
    sellingFinalPrice 99 (some ⟨("5OFF"), 5⟩) = 9405 / 100 ∧
    ¬ sellingFinalPrice 99 (some ⟨("5OFF"), 5⟩) =
        ((jsRound ((99 : ℚ) * (1 - (5 : ℚ) / 100)) : ℤ) : ℚ) := by
  have h1 : jsRound ((99 : ℚ) * (100 - ((5 : ℕ) : ℚ))) = 9405 := by
    apply jsRound_eq <;> norm_num
  have h2 : jsRound ((99 : ℚ) * (1 - (5 : ℚ) / 100)) = 94 := by
    apply jsRound_eq <;> norm_num
  constructor
  · simp only [sellingFinalPrice, h1]
    norm_num
  · simp only [sellingFinalPrice, h1, h2]
    norm_num

/-- C6: for every seed text and limit n, both search revisions return at most
n records ordered by non-increasing score, and an empty catalog yields the
empty list with no error. -/
theorem searchArtworks_spec : ∀ (catalog : List ArtworkRecord) (q : String) (n : ℕ),
    (searchArtworksSub catalog q n).length ≤ n ∧
    (searchArtworksTok catalog q n).length ≤ n ∧
    List.Pairwise (fun a b => scoreSub q b ≤ scoreSub q a) (searchArtworksSub catalog q n) ∧
    List.Pairwise (fun a b => scoreTok q b ≤ scoreTok q a) (searchArtworksTok catalog q n) ∧
    searchArtworksSub [] q n = [] ∧ searchArtworksTok [] q n = [] := by
  intro catalog q n
  refine ⟨searchTake_length _ _, searchTake_length _ _, ?_, ?_, ?_, ?_⟩
  · exact searchWith_pairwise catalog (scoreSub q) n
  · exact searchWith_pairwise catalog (scoreTok q) n
  · simp [searchArtworksSub, scoredSub, sortScored]
  · simp [searchArtworksTok, scoredTok, sortScored]

/-- C7 (amended): the sort is stable — filtering the sorted scored list to
any fixed score value yields exactly the catalog-order entries of that
score — and an empty seed gives every record the uniform score 5 in the
substring revision (every includes check passes on the empty string, so the
score is not 0), making the output equal to the catalog order truncated to
the limit, while the token revision scores records only by presence of a
main image; both still return at most the limit. -/
theorem searchArtworks_stability : ∀ (catalog : List ArtworkRecord) (q : String) (n s : ℕ),
    (sortScored (scoredSub catalog q)).filter (fun y => y.score == s) =
      (scoredSub catalog q).filter (fun y => y.score == s) ∧
    (sortScored (scoredTok catalog q)).filter (fun y => y.score == s) =
      (scoredTok catalog q).filter (fun y => y.score == s) ∧
    (∀ r : ArtworkRecord, scoreSub ("") r = 5) ∧
    (∀ r : ArtworkRecord, scoreTok ("") r = if truthyOpt r.main_image then 1 else 0) ∧
    searchArtworksSub catalog ("") n = catalog.take n := by
  intro catalog q n s
  refine ⟨sortScored_filter _ _, sortScored_filter _ _, scoreSub_empty, scoreTok_empty, ?_⟩
  have h5 : ∀ y ∈ scoredSub catalog (""), y.score = 5 := by
    intro y hy
    rcases List.mem_map.mp hy with ⟨r, _, rfl⟩
    exact scoreSub_empty r
  unfold searchArtworksSub
  rw [sortScored_uniform _ 5 h5]
  unfold scoredSub
  rw [← List.map_take, List.map_map]
  have hcomp : (Scored.rcd ∘ fun r => (⟨r, scoreSub ("") r⟩ : Scored)) = id := rfl
  rw [hcomp, List.map_id]

theorem searchArtworks_stability_cx :
    scoreSub ("") blankRec = 5 ∧ ¬ scoreSub ("") blankRec = 0 := by
  refine ⟨scoreSub_empty blankRec, ?_⟩
  rw [scoreSub_empty blankRec]
  decide

/-- C3 (amended): for the Dana scenario message with empty history, slot
extraction returns name Dana, room living room, style bold and budget 500;
the extractor of the source has no location slot, so no Tel Aviv location
is part of the result. -/
theorem extractState_dana :
    extractState1 danaMsg [] =
      ⟨some ("Dana"), ⟨some ("living room"), some ("bold"), some ("500")⟩⟩ := by
  decide

theorem extractState_dana_cx :
    ¬ ("Tel Aviv") ∈ slotVals (extractState1 danaMsg []) := by
  decide

/-- C2 (amended): every part_001 /api/chat 200 body is exactly an object
with a reply string, an items array and a meta object whose only field is
buyerName — there is no sessionId in the response meta; the index.js
revision returns a reply-only object. -/
theorem chatResponse_shape : ∀ (catalog : List ArtworkRecord) (req : ChatRequest),
    ∃ (r : String) (its : List Json) (bn : Json),
      chatResponseJson1 catalog req =
        Json.obj [(("reply"), Json.str r), (("items"), Json.arr its),
                  (("meta"), Json.obj [(("buyerName"), bn)])] := by
  intro catalog req
  exact ⟨_, _, _, rfl⟩

theorem chatResponse_shape_cx :
    jsonKeys (metaOf (chatResponseJson1 [] reqHello)) = [("buyerName")] ∧
    ¬ ("sessionId") ∈ jsonKeys (metaOf (chatResponseJson1 [] reqHello)) := by
  have h : jsonKeys (metaOf (chatResponseJson1 [] reqHello)) = [("buyerName")] := rfl
  refine ⟨h, ?_⟩
  rw [h]
  decide

/-- C10 (amended): a non-empty meta.buyerName takes precedence over any name
extracted from the message — the response meta.buyerName equals the supplied
one — while extraction is consulted whenever meta.buyerName is absent or
empty (falsy), not only when it is absent. -/
theorem buyerName_precedence : ∀ (catalog : List ArtworkRecord) (req : ChatRequest)
    (m : ChatMeta) (s : String), req.meta = some m → m.buyerName = some s →
    (s ≠ ("") → (chatHandler1 catalog req).buyerName = some s) ∧
    (s = ("") → (chatHandler1 catalog req).buyerName =
      jsStrOrNull (extractState1 (strOr req.message ("")) (req.history.getD [])).name) := by
  intro catalog req m s hm hb
  constructor
  · intro hs
    simp [chatHandler1, hm, hb, jsStrOrNull, hs, Option.bind]
  · intro hs
    simp [chatHandler1, hm, hb, jsStrOrNull, hs, Option.bind]

theorem buyerName_precedence_witness :
    (chatHandler1 [] reqAnn).buyerName = some ("Ann") :=
  (buyerName_precedence [] reqAnn ⟨none, some ("Ann")⟩ ("Ann") rfl rfl).1 (by decide)

theorem buyerName_precedence_cx :
    (chatHandler1 [] reqBobEmpty).buyerName = some ("Bob") ∧
    ¬ (chatHandler1 [] reqBobEmpty).buyerName = some ("") := by
  decide

/-- C4 (amended): every POST /api/realtime/session request is answered 200
with the fixed placeholder message body; the code performs no proxying to
an external realtime endpoint and has no 500 session_failed path. -/
theorem realtime_placeholder :
    realtimeEndpoint =
      (200, Json.obj [(("message"),
        Json.str ("Realtime API integration is not available in this demo."))]) := rfl

theorem realtime_placeholder_cx :
    realtimeEndpoint.1 = 200 ∧ ¬ realtimeEndpoint.1 = 500 ∧
    (jget realtimeEndpoint.2 ("error")).isNone = true := by
  refine ⟨rfl, by decide, rfl⟩

/-- C8 (amended): a malformed /api/chat request body is answered 200 with
the fixed fallback reply by the part_001 revision, but the index.js (and
part_000) revision answers it 400 with an Invalid JSON error object. -/
theorem chat_malformed_status : ∀ (catalog : List ArtworkRecord),
    (chatEndpoint1 catalog none).1 = 200 ∧
    (chatEndpoint1 catalog none).2 = Json.obj [(("reply"), Json.str fallback1)] ∧
    (chatEndpointIdx catalog none).1 = 400 := by
  intro catalog
  exact ⟨rfl, rfl, rfl⟩

theorem chat_malformed_status_cx :
    (chatEndpointIdx [] none).1 = 400 ∧ ¬ (chatEndpointIdx [] none).1 = 200 := by
  exact ⟨rfl, by decide⟩

/-- C9: in the history-tracking revision, whenever some prior assistant
message contains a percent figure together with the word discount or off,
the discount handed to reply assembly on the current turn is null, for
every current message and catalog. -/
theorem discount_suppressed_by_history : ∀ (catalog : List ArtworkRecord) (message : String)
    (history : List ChatMsg),
    (∃ m, m ∈ history ∧ m.role = "assistant" ∧
      percentPat (lcContent m) = true ∧ offPat (lcContent m) = true) →
    (chatPipelineIdx catalog message history).2 = none := by
  intro catalog message history h
  obtain ⟨m, hm, hrole, hpct, hoff⟩ := h
  have htrig : discountTrigger m = true := by
    unfold discountTrigger
    simp [hrole, hpct, hoff]
  have hany : (history ++ [(⟨("user"), some message⟩ : ChatMsg)]).any discountTrigger = true := by
    rw [List.any_append]
    simp only [Bool.or_eq_true, List.any_eq_true]
    exact Or.inl ⟨m, hm, htrig⟩
  have hdisc : (extractStateIdx
      (history ++ [(⟨("user"), some message⟩ : ChatMsg)])).discountOffered = true := by
    unfold extractStateIdx
    rw [foldl_discount, hany]
    simp
  unfold chatPipelineIdx
  generalize hst :
    extractStateIdx (history ++ [(⟨("user"), some message⟩ : ChatMsg)]) = st at hdisc
  rcases st with ⟨room, style, budget, recd, story, disc⟩
  simp only at hdisc
  subst hdisc
  unfold pipelineStep
  cases room <;> cases style <;> cases budget <;> cases recd <;> cases story <;> simp

theorem discount_suppressed_by_history_witness :
    (chatPipelineIdx [] ("ok") histDiscount).2 = none := by
  apply discount_suppressed_by_history
  exact ⟨⟨("assistant"), some ("I can offer a 5% discount today")⟩, by decide, rfl,
    by decide, by decide⟩
